import Mathlib

/-!
Verification of the Lead_Qualifier backend (src/backend) against its
natural-language specification.  The Python code is shallowly embedded:
pure fragments become Lean functions, the database session becomes an
explicit `StoreState` value, the optional LLM call becomes an explicit
`Except` argument describing the outcome of the external request, and
JSON payloads become an inductive `JsonVal` type with Python's truthiness
and membership semantics.
-/

/-- Outcome record of `enhance_lead_with_llm` (Python dict with keys
`quality` and `summary`). -/
structure Enhancement where
  quality : String
  summary : String
deriving Repr, DecidableEq

/-- Rule-based quality from the fallback branches of
`enhance_lead_with_llm` (app.py lines 55-61 and 103-109). -/
def defaultQuality (size : Int) (source : String) : String :=
  if 500 ≤ size ∧ (source = "Referral" ∨ source = "Trade Show") then "High"
  else if 100 ≤ size ∧ source ≠ "Organic" then "Medium"
  else "Low"

/-- Templated summary from the fallback branches of
`enhance_lead_with_llm` (app.py lines 63 and 111). -/
def defaultSummary (company industry : String) (size : Int) (source : String) : String :=
  "Lead from " ++ company ++ " in " ++ industry ++ " industry with "
    ++ toString size ++ " employees. Source: " ++ source ++ "."

/-- Fallback result of `enhance_lead_with_llm` when the LLM is unavailable
or the call failed. -/
def defaultEnhancement (company industry : String) (size : Int) (source : String) :
    Enhancement :=
  ⟨defaultQuality size source, defaultSummary company industry size source⟩

/-- Embedding of `enhance_lead_with_llm` (app.py lines 50-114).
`llmAvailable` models the module flag LLM_AVAILABLE; `llmCall` models the
outcome of the try-block around the network request and `json.loads`:
`Except.ok r` is a successfully parsed response and `Except.error` any
raised exception.  The Python code returns a parsed response unchanged
and falls back to the rule-based result only in the except branch. -/
def enhance_lead_with_llm (llmAvailable : Bool) (llmCall : Except String Enhancement)
    (name company industry : String) (size : Int) (source : String) : Enhancement :=
  if llmAvailable then
    match llmCall with
    | .ok r => r
    | .error _ => defaultEnhancement company industry size source
  else
    defaultEnhancement company industry size source

/-- JSON-like payload values stored in the events table's JSON column. -/
inductive JsonVal where
  | null : JsonVal
  | bool : Bool → JsonVal
  | num : Int → JsonVal
  | str : String → JsonVal
  | arr : List JsonVal → JsonVal
  | obj : List (String × JsonVal) → JsonVal

/-- Python truthiness of a JSON value (`if event.data:`). -/
def JsonVal.truthy : JsonVal → Bool
  | .null => false
  | .bool b => b
  | .num n => decide (n ≠ 0)
  | .str s => decide (s ≠ "")
  | .arr [] => false
  | .arr (_ :: _) => true
  | .obj [] => false
  | .obj (_ :: _) => true

/-- Row of the leads table (models.py, class Lead). -/
structure LeadRec where
  id : Nat
  name : String
  company : String
  industry : String
  size : Int
  source : String
  quality : String
  summary : String
deriving Repr, DecidableEq

/-- Row of the events table (models.py, class Event). Timestamps are
abstracted to integers (e.g. epoch seconds). -/
structure EventRec where
  id : Nat
  action : String
  data : Option JsonVal
  timestamp : Int

/-- The two persisted tables seen by a request handler. -/
structure StoreState where
  leads : List LeadRec
  events : List EventRec

/-- Python truthiness of an optional query-string parameter
(`if industry:` in get_leads — None and "" are falsy). -/
def truthyStrOpt : Option String → Bool
  | none => false
  | some s => decide (s ≠ "")

/-- Python truthiness of an optional integer query parameter
(`if size:` in get_leads — None and 0 are falsy). -/
def truthyIntOpt : Option Int → Bool
  | none => false
  | some n => decide (n ≠ 0)

/-- Case-insensitive substring containment, embedding the SQL
`ilike "%industry%"` filter applied by get_leads. -/
def containsCI (hay needle : String) : Bool :=
  let rec go : List Char → List Char → Bool
    | _, [] => true
    | [], _ :: _ => false
    | c :: cs, pat => pat.isPrefixOf (c :: cs) || go cs pat
  go hay.toLower.data needle.toLower.data

/-- Query part of `get_leads` (app.py lines 190-198): starts from all
leads, narrows by a case-insensitive industry substring when the industry
parameter is truthy, then by an inclusive size lower bound when the size
parameter is truthy. -/
def filterLeads (industry : Option String) (size : Option Int)
    (leads : List LeadRec) : List LeadRec :=
  let l1 := if truthyStrOpt industry then
      leads.filter (fun ld => containsCI ld.industry (industry.getD ""))
    else leads
  if truthyIntOpt size then l1.filter (fun ld => decide (size.getD 0 ≤ ld.size)) else l1

/-- Data payload of the filter event logged by `get_leads`
(app.py lines 200-207): the dict collects industry and size when truthy,
and an empty dict is stored as null. -/
def filterEventData (industry : Option String) (size : Option Int) : Option JsonVal :=
  let fd : List (String × JsonVal) :=
    (if truthyStrOpt industry then [("industry", .str (industry.getD ""))] else [])
      ++ (if truthyIntOpt size then [("size", .num (size.getD 0))] else [])
  if fd.isEmpty then none else some (.obj fd)

/-- Embedding of the `get_leads` handler (app.py lines 181-234): computes
the filtered lead list, appends one filter event (autoincrement id,
server timestamp `now`), and leaves the leads table untouched. -/
def get_leads (industry : Option String) (size : Option Int) (now : Int)
    (st : StoreState) : List LeadRec × StoreState :=
  let result := filterLeads industry size st.leads
  let e : EventRec :=
    ⟨st.events.length + 1, "filter", filterEventData industry size, now⟩
  (result, ⟨st.leads, st.events ++ [e]⟩)

/-- Timestamp resolution of the `post_event` handler (app.py lines
243-250): a missing or falsy timestamp string, or one the ISO parser
rejects (after replacing "Z" with "+00:00"), is replaced by the current
server time.  The parser itself is external (datetime.fromisoformat) and
is passed in as a function. -/
def resolveTimestamp (supplied : Option String) (parse : String → Option Int)
    (now : Int) : Int :=
  match supplied with
  | none => now
  | some s =>
    if s ≠ "" then
      match parse (s.replace "Z" "+00:00") with
      | some t => t
      | none => now
    else now

/-- Embedding of the `post_event` handler (app.py lines 236-268): appends
one event with the resolved timestamp and returns it. -/
def post_event (action : String) (data : Option JsonVal)
    (tsSupplied : Option String) (parse : String → Option Int) (now : Int)
    (st : StoreState) : EventRec × StoreState :=
  let e : EventRec :=
    ⟨st.events.length + 1, action, data, resolveTimestamp tsSupplied parse now⟩
  (e, ⟨st.leads, st.events ++ [e]⟩)

/-- Add one occurrence of a string key to an association list of counts
(one GROUP BY bucket gaining a row). -/
def bumpStr (k : String) : List (String × Nat) → List (String × Nat)
  | [] => [(k, 1)]
  | (j, n) :: rest => if j = k then (j, n + 1) :: rest else (j, n) :: bumpStr k rest

/-- Group a list by a string key, counting occurrences; buckets appear in
first-appearance order.  This models the grouping performed by the
GROUP BY queries of analytics.py. -/
def countBy (key : α → String) (xs : List α) : List (String × Nat) :=
  xs.foldl (fun acc x => bumpStr (key x) acc) []

/-- Count recorded for a key in an association list of counts (0 when the
key has no bucket). -/
def lookupCount (l : List (String × Nat)) (a : String) : Nat :=
  match l.find? (fun p => decide (p.1 = a)) with
  | some p => p.2
  | none => 0

/-- Total of all counts in an association list of counts. -/
def sumCounts (l : List (String × Nat)) : Nat :=
  (l.map (fun p => p.2)).sum

/-- Embedding of the action-frequency query of `get_usage_analytics`
(analytics.py lines 52-59): group events by action and order by count
descending.  The SQL specifies no further ordering key, so ties are left
in the order the grouping produced them (the sort is stable); this is one
admissible evaluation of the query. -/
def actionFrequency (events : List EventRec) : List (String × Nat) :=
  (countBy (fun e => e.action) events).mergeSort (fun a b => decide (b.2 ≤ a.2))

/-- Rows ordered by count descending. -/
def sortedByCountDesc (out : List (String × Nat)) : Prop :=
  out.Pairwise (fun a b => b.2 ≤ a.2)

/-- Exactly the ordering constraint the action-frequency SQL imposes on
its result: some permutation of the per-action counts that is sorted by
count descending.  Any such list is an admissible query result. -/
def actionFreqRows (events : List EventRec) (out : List (String × Nat)) : Prop :=
  out.Perm (countBy (fun e => e.action) events) ∧ sortedByCountDesc out

/-- Lexicographic comparison of character lists (computable order on
action names). -/
def charListLe : List Char → List Char → Bool
  | [], _ => true
  | _ :: _, [] => false
  | a :: as, b :: bs => if a < b then true else if b < a then false else charListLe as bs

/-- Lexicographic order on strings, used to express the name-ascending
tie-break asserted by the specification. -/
def strLeB (a b : String) : Bool := charListLe a.data b.data

/-- Ordering asserted by the specification: count descending with ties
broken by action name ascending. -/
def countDescNameAsc (out : List (String × Nat)) : Prop :=
  out.Pairwise (fun a b => b.2 < a.2 ∨ (a.2 = b.2 ∧ strLeB a.1 b.1 = true))

/-- Quality-distribution rows of `get_lead_analytics` (analytics.py lines
132-142): per-quality count together with its percentage of the total;
real arithmetic is modelled over the rationals.  On an empty lead set the
query returns no rows and the percentage division is never reached. -/
def qualityDistribution (leads : List LeadRec) : List (String × Nat × ℚ) :=
  let qc := countBy (fun ld => ld.quality) leads
  let total := sumCounts qc
  qc.map (fun p => (p.1, p.2, ((p.2 : ℚ) / (total : ℚ)) * 100))

/-- Substring test on character lists (Python `in` on strings is
case-sensitive containment). -/
def subListB (pat : List Char) : List Char → Bool
  | [] => pat.isEmpty
  | c :: cs => pat.isPrefixOf (c :: cs) || subListB pat cs

/-- Case-sensitive substring containment on strings. -/
def strContainsB (hay needle : String) : Bool := subListB needle.data hay.data

/-- Python membership test `key in data` for a JSON value: key lookup on a
dict, element equality on a list, substring on a string, and a TypeError
on non-iterable values (numbers, booleans, None). -/
def pyContains (key : String) : JsonVal → Except String Bool
  | .obj fs => .ok (fs.any (fun p => decide (p.1 = key)))
  | .arr xs =>
    .ok (xs.any (fun x => match x with | .str s => decide (s = key) | _ => false))
  | .str s => .ok (strContainsB s key)
  | .num _ => .error "TypeError: argument of type int is not iterable"
  | .bool _ => .error "TypeError: argument of type bool is not iterable"
  | .null => .error "TypeError: argument of type NoneType is not iterable"

/-- Python subscript `data[key]` with a string key: dict lookup (KeyError
when absent), TypeError on strings, lists and other values. -/
def pyGetItem (key : String) : JsonVal → Except String JsonVal
  | .obj fs =>
    match fs.find? (fun p => decide (p.1 = key)) with
    | some p => .ok p.2
    | none => .error "KeyError"
  | .str _ => .error "TypeError: string indices must be integers"
  | .arr _ => .error "TypeError: list indices must be integers"
  | _ => .error "TypeError: value is not subscriptable"

/-- Values usable as Python dict keys (lists and dicts are unhashable). -/
def pyHashable : JsonVal → Bool
  | .arr _ => false
  | .obj _ => false
  | _ => true

/-- Python equality on hashable JSON scalars (with bool/int cross
equality, as in Python). -/
def pyKeyEq : JsonVal → JsonVal → Bool
  | .null, .null => true
  | .bool a, .bool b => a == b
  | .num a, .num b => a == b
  | .str a, .str b => a == b
  | .bool a, .num b => (if a then (1 : Int) else 0) == b
  | .num a, .bool b => a == (if b then (1 : Int) else 0)
  | _, _ => false

/-- Add one occurrence of a JSON key to an association list of counts
(the Python dict update industry_filters[v] = get(v, 0) + 1). -/
def bumpVal (k : JsonVal) : List (JsonVal × Nat) → List (JsonVal × Nat)
  | [] => [(k, 1)]
  | (j, n) :: rest => if pyKeyEq j k then (j, n + 1) :: rest else (j, n) :: bumpVal k rest

/-- Dict update guarded by hashability: a list- or dict-valued key raises
a TypeError. -/
def dictBump (k : JsonVal) (l : List (JsonVal × Nat)) :
    Except String (List (JsonVal × Nat)) :=
  if pyHashable k then .ok (bumpVal k l) else .error "TypeError: unhashable type"

/-- Loop state of the filter-usage aggregation in `get_usage_analytics`
(analytics.py lines 66-73): industry filter counts and the collected size
filter values. -/
structure FilterAgg where
  industry_filters : List (JsonVal × Nat)
  size_filters : List JsonVal

/-- The `if 'industry' in event.data:` block of the aggregation loop. -/
def stepInd (agg : FilterAgg) (d : JsonVal) : Except String FilterAgg :=
  match pyContains "industry" d with
  | .error e => .error e
  | .ok true =>
    match pyGetItem "industry" d with
    | .error e => .error e
    | .ok v =>
      match dictBump v agg.industry_filters with
      | .error e => .error e
      | .ok ifs => .ok ⟨ifs, agg.size_filters⟩
  | .ok false => .ok agg

/-- The `if 'size' in event.data:` block of the aggregation loop. -/
def stepSize (agg : FilterAgg) (d : JsonVal) : Except String FilterAgg :=
  match pyContains "size" d with
  | .error e => .error e
  | .ok true =>
    match pyGetItem "size" d with
    | .error e => .error e
    | .ok v => .ok ⟨agg.industry_filters, agg.size_filters ++ [v]⟩
  | .ok false => .ok agg

/-- One iteration of the filter-usage loop (analytics.py lines 66-73):
falsy payloads are skipped, truthy ones go through the industry and size
blocks; any raised TypeError propagates. -/
def processFilterEvent (agg : FilterAgg) (data : Option JsonVal) :
    Except String FilterAgg :=
  match data with
  | none => .ok agg
  | some d =>
    if d.truthy then
      match stepInd agg d with
      | .error e => .error e
      | .ok agg1 => stepSize agg1 d
    else .ok agg

/-- Python `sum` over the collected size values: integers add, booleans
count as 1/0, anything else raises a TypeError. -/
def pySum : Int → List JsonVal → Except String Int
  | acc, [] => .ok acc
  | acc, v :: rest =>
    match v with
    | .num n => pySum (acc + n) rest
    | .bool b => pySum (acc + (if b then 1 else 0)) rest
    | _ => .error "TypeError: unsupported operand type for +"

/-- Filter-usage section of `get_usage_analytics` (analytics.py lines
63-82): iterate over the data payloads of the events with action
"filter", then compute the average size filter when any were collected.
Real arithmetic is modelled over the rationals. -/
def filterUsagePatterns (events : List EventRec) :
    Except String (FilterAgg × Option ℚ) :=
  match ((events.filter (fun e => decide (e.action = "filter"))).map
      (fun e => e.data)).foldlM processFilterEvent ⟨[], []⟩ with
  | .error e => .error e
  | .ok agg =>
    if agg.size_filters.isEmpty then .ok (agg, none)
    else
      match pySum 0 agg.size_filters with
      | .error e => .error e
      | .ok s => .ok (agg, some ((s : ℚ) / (agg.size_filters.length : ℚ)))

/-- Whether an aggregation run completed without raising. -/
def exceptOk {α : Type} : Except String α → Bool
  | .ok _ => true
  | .error _ => false

/-- Whether a JSON value is an integer. -/
def isNumV : JsonVal → Bool
  | .num _ => true
  | _ => false

/-- Payloads the aggregation loop handles without raising: absent or falsy
data, or a dict whose industry value (when the key is present) is
hashable and whose size value (when present) is an integer. -/
def goodPayload : Option JsonVal → Bool
  | none => true
  | some d =>
    if d.truthy then
      match d with
      | .obj fs =>
        (match fs.find? (fun p => decide (p.1 = "industry")) with
         | some p => pyHashable p.2
         | none => true)
          && (match fs.find? (fun p => decide (p.1 = "size")) with
            | some p => isNumV p.2
            | none => true)
      | _ => false
    else true

/-- C1: for every lead input with positive integer size, the default
(no-augmentation) classifier returns High if size ≥ 500 and the source is
"Referral" or "Trade Show"; otherwise Medium if size ≥ 100 and the source
is not "Organic"; otherwise Low. -/
theorem C1_default_classifier (name company industry source : String) (size : Int)
    (hpos : 1 ≤ size) :
    ((500 ≤ size ∧ (source = "Referral" ∨ source = "Trade Show") →
      (enhance_lead_with_llm false (.error "") name company industry size source).quality
        = "High") ∧
     (¬ (500 ≤ size ∧ (source = "Referral" ∨ source = "Trade Show")) →
      100 ≤ size ∧ source ≠ "Organic" →
      (enhance_lead_with_llm false (.error "") name company industry size source).quality
        = "Medium") ∧
     (¬ (500 ≤ size ∧ (source = "Referral" ∨ source = "Trade Show")) →
      ¬ (100 ≤ size ∧ source ≠ "Organic") →
      (enhance_lead_with_llm false (.error "") name company industry size source).quality
        = "Low")) := by
  refine ⟨?_, ?_, ?_⟩ <;>
    simp only [enhance_lead_with_llm, defaultEnhancement, defaultQuality,
      if_false, Bool.false_eq_true] <;>
    intro h1 <;> try intro h2
  · simp [h1]
  · simp [h1, h2]
  · simp [h1, h2]

/-- Witness for C1 at a concrete high-quality lead. -/
theorem C1_default_classifier_witness :
    (1 : Int) ≤ 600 ∧
    ((500 ≤ (600 : Int) ∧ ("Referral" = "Referral" ∨ "Referral" = "Trade Show") →
      (enhance_lead_with_llm false (.error "") "Ann" "Acme" "Tech" 600 "Referral").quality
        = "High") ∧
     (¬ (500 ≤ (600 : Int) ∧ ("Referral" = "Referral" ∨ "Referral" = "Trade Show")) →
      100 ≤ (600 : Int) ∧ "Referral" ≠ "Organic" →
      (enhance_lead_with_llm false (.error "") "Ann" "Acme" "Tech" 600 "Referral").quality
        = "Medium") ∧
     (¬ (500 ≤ (600 : Int) ∧ ("Referral" = "Referral" ∨ "Referral" = "Trade Show")) →
      ¬ (100 ≤ (600 : Int) ∧ "Referral" ≠ "Organic") →
      (enhance_lead_with_llm false (.error "") "Ann" "Acme" "Tech" 600 "Referral").quality
        = "Low")) :=
  ⟨by decide, C1_default_classifier "Ann" "Acme" "Tech" "Referral" 600 (by decide)⟩

/-- C2 counterexample: a successfully parsed LLM response whose quality is
"Excellent" — outside {High, Medium, Low} — is returned unchanged by
`enhance_lead_with_llm`; the code does not treat it as a failure and does
not fall back to the rule-based quality (which would be "High" here). -/
theorem C2_out_of_set_quality_counterexample :
    (enhance_lead_with_llm true (.ok ⟨"Excellent", "great lead"⟩)
        "Ann" "Acme" "Tech" 600 "Referral").quality = "Excellent" ∧
    "Excellent" ≠ "High" ∧ "Excellent" ≠ "Medium" ∧ "Excellent" ≠ "Low" ∧
    (enhance_lead_with_llm false (.error "") "Ann" "Acme" "Tech" 600 "Referral").quality
      = "High" := by
  refine ⟨rfl, by decide, by decide, by decide, ?_⟩
  simp [enhance_lead_with_llm, defaultEnhancement, defaultQuality]

/-- C2 amended: the classifier falls back to the rule-based quality and
templated summary exactly when the augmentation call raises (network error
or unparsable response) or the LLM is unavailable; a successfully parsed
response is returned unchanged, whatever its quality value. -/
theorem C2_fallback_only_on_exception (r : Enhancement) (e : String)
    (name company industry : String) (size : Int) (source : String) :
    enhance_lead_with_llm true (.error e) name company industry size source
      = defaultEnhancement company industry size source ∧
    enhance_lead_with_llm false (.ok r) name company industry size source
      = defaultEnhancement company industry size source ∧
    enhance_lead_with_llm true (.ok r) name company industry size source = r :=
  ⟨rfl, rfl, rfl⟩

/-- C10: the default (no-augmentation) classifier assigns the same quality
tier to any two leads agreeing on size and source, whatever their name,
company and industry. -/
theorem C10_quality_depends_only_on_size_source
    (n1 c1 i1 n2 c2 i2 source : String) (size : Int) :
    (enhance_lead_with_llm false (.error "") n1 c1 i1 size source).quality
      = (enhance_lead_with_llm false (.error "") n2 c2 i2 size source).quality := rfl

/-- C4: with a (non-empty) industry filter, `get_leads` returns exactly
the stored leads whose industry contains the filter string as a
case-insensitive substring; with a (non-zero) size filter, exactly the
leads of size at least the bound; with no filters, all stored leads. -/
theorem C4_lead_filtering (leads : List LeadRec) (ld : LeadRec) (f : String) (n : Int)
    (hf : f ≠ "") (hn : n ≠ 0) :
    ((ld ∈ filterLeads (some f) none leads ↔
        ld ∈ leads ∧ containsCI ld.industry f = true) ∧
     (ld ∈ filterLeads none (some n) leads ↔ ld ∈ leads ∧ n ≤ ld.size) ∧
     filterLeads none none leads = leads) := by
  refine ⟨?_, ?_, rfl⟩ <;>
    simp [filterLeads, truthyStrOpt, truthyIntOpt, hf, hn, List.mem_filter]

/-- Witness for C4 on a store holding one Technology lead, with industry
filter "tech" and size filter 100. -/
theorem C4_lead_filtering_witness :
    (((⟨1, "Ann", "Acme", "Technology", 600, "Referral", "High", "s"⟩ : LeadRec) ∈
        filterLeads (some "tech") none
          [⟨1, "Ann", "Acme", "Technology", 600, "Referral", "High", "s"⟩] ↔
      (⟨1, "Ann", "Acme", "Technology", 600, "Referral", "High", "s"⟩ : LeadRec) ∈
        [(⟨1, "Ann", "Acme", "Technology", 600, "Referral", "High", "s"⟩ : LeadRec)] ∧
      containsCI "Technology" "tech" = true) ∧
     ((⟨1, "Ann", "Acme", "Technology", 600, "Referral", "High", "s"⟩ : LeadRec) ∈
        filterLeads none (some 100)
          [⟨1, "Ann", "Acme", "Technology", 600, "Referral", "High", "s"⟩] ↔
      (⟨1, "Ann", "Acme", "Technology", 600, "Referral", "High", "s"⟩ : LeadRec) ∈
        [(⟨1, "Ann", "Acme", "Technology", 600, "Referral", "High", "s"⟩ : LeadRec)] ∧
      (100 : Int) ≤ 600) ∧
     filterLeads none none
        [(⟨1, "Ann", "Acme", "Technology", 600, "Referral", "High", "s"⟩ : LeadRec)]
      = [⟨1, "Ann", "Acme", "Technology", 600, "Referral", "High", "s"⟩]) :=
  C4_lead_filtering
    [⟨1, "Ann", "Acme", "Technology", 600, "Referral", "High", "s"⟩]
    ⟨1, "Ann", "Acme", "Technology", 600, "Referral", "High", "s"⟩
    "tech" 100 (by decide) (by decide)

/-- C9: an empty industry parameter and a zero size parameter are treated
by `get_leads` exactly as absent parameters: same returned leads and same
logged filter event. -/
theorem C9_falsy_params_treated_as_absent (ind : Option String) (sz : Option Int)
    (now : Int) (st : StoreState) :
    get_leads (some "") sz now st = get_leads none sz now st ∧
    get_leads ind (some 0) now st = get_leads ind none now st :=
  ⟨rfl, rfl⟩

/-- C8: a successful `get_leads` call leaves the leads table unchanged and
appends exactly one event with action "filter" whose data holds exactly
the filter fields actually supplied (with empty string and zero counting
as absent, per C9), and null data when none were supplied. -/
theorem C8_filter_event_logged (ind : Option String) (sz : Option Int)
    (now : Int) (st : StoreState)
    (hind : ind ≠ some "") (hsz : sz ≠ some 0) :
    ((get_leads ind sz now st).2.leads = st.leads ∧
     (get_leads ind sz now st).2.events
       = st.events ++ [⟨st.events.length + 1, "filter", filterEventData ind sz, now⟩] ∧
     filterEventData ind sz = (match ind, sz with
       | none, none => none
       | some i, none => some (.obj [("industry", .str i)])
       | none, some n => some (.obj [("size", .num n)])
       | some i, some n => some (.obj [("industry", .str i), ("size", .num n)]))) := by
  refine ⟨rfl, rfl, ?_⟩
  rcases ind with _ | i <;> rcases sz with _ | n
  · rfl
  · have hn : n ≠ 0 := by simpa using hsz
    simp [filterEventData, truthyStrOpt, truthyIntOpt, hn]
  · have hi : i ≠ "" := by simpa using hind
    simp [filterEventData, truthyStrOpt, truthyIntOpt, hi]
  · have hn : n ≠ 0 := by simpa using hsz
    have hi : i ≠ "" := by simpa using hind
    simp [filterEventData, truthyStrOpt, truthyIntOpt, hi, hn]

/-- Witness for C8 with industry "tech" and size 100 supplied on an empty
store. -/
theorem C8_filter_event_logged_witness :
    ((get_leads (some "tech") (some 100) 42 ⟨[], []⟩).2.leads = (⟨[], []⟩ : StoreState).leads ∧
     (get_leads (some "tech") (some 100) 42 ⟨[], []⟩).2.events
       = (⟨[], []⟩ : StoreState).events
         ++ [⟨(⟨[], []⟩ : StoreState).events.length + 1, "filter",
              filterEventData (some "tech") (some 100), 42⟩] ∧
     filterEventData (some "tech") (some 100)
       = (match (some "tech" : Option String), (some (100 : Int) : Option Int) with
         | none, none => none
         | some i, none => some (.obj [("industry", .str i)])
         | none, some n => some (.obj [("size", .num n)])
         | some i, some n => some (.obj [("industry", .str i), ("size", .num n)]))) :=
  C8_filter_event_logged (some "tech") (some 100) 42 ⟨[], []⟩ (by decide) (by decide)

/-- C5: posting an event with no timestamp, or with a timestamp string the
ISO parser rejects, stores the event with the current server time as its
timestamp (the stored timestamp equals the call-time clock value). -/
theorem C5_timestamp_fallback (action : String) (data : Option JsonVal)
    (parse : String → Option Int) (now : Int) (st : StoreState) (s : String)
    (hp : parse (s.replace "Z" "+00:00") = none) :
    ((post_event action data none parse now st).1.timestamp = now ∧
     (post_event action data (some s) parse now st).1.timestamp = now ∧
     (post_event action data none parse now st).2.events
       = st.events ++ [⟨st.events.length + 1, action, data, now⟩]) := by
  refine ⟨rfl, ?_, rfl⟩
  by_cases hs : s = "" <;> simp [post_event, resolveTimestamp, hs, hp]

/-- Witness for C5 with an unparsable timestamp string and a parser that
rejects it. -/
theorem C5_timestamp_fallback_witness :
    ((post_event "click" none none (fun _ => none) 42 ⟨[], []⟩).1.timestamp = 42 ∧
     (post_event "click" none (some "not-a-date") (fun _ => none) 42 ⟨[], []⟩).1.timestamp
       = 42 ∧
     (post_event "click" none none (fun _ => none) 42 ⟨[], []⟩).2.events
       = (⟨[], []⟩ : StoreState).events
         ++ [⟨(⟨[], []⟩ : StoreState).events.length + 1, "click", none, 42⟩]) :=
  C5_timestamp_fallback "click" none (fun _ => none) 42 ⟨[], []⟩ "not-a-date" rfl

theorem lookupCount_cons (j : String) (n : Nat) (rest : List (String × Nat)) (a : String) :
    lookupCount ((j, n) :: rest) a = if j = a then n else lookupCount rest a := by
  by_cases h : j = a <;> simp [lookupCount, List.find?_cons, h]

theorem lookupCount_bumpStr (k a : String) (l : List (String × Nat)) :
    lookupCount (bumpStr k l) a = lookupCount l a + (if a = k then 1 else 0) := by
  induction l with
  | nil =>
    by_cases h : a = k <;>
      simp [bumpStr, lookupCount_cons, lookupCount, h, eq_comm]
  | cons p rest ih =>
    obtain ⟨j, n⟩ := p
    by_cases hjk : j = k
    · subst hjk
      by_cases haj : j = a
      · subst haj
        simp [bumpStr, lookupCount_cons]
      · have haj2 : ¬ a = j := fun hh => haj hh.symm
        simp [bumpStr, lookupCount_cons, haj, haj2]
    · by_cases haj : j = a
      · subst haj
        simp [bumpStr, hjk, lookupCount_cons, Ne.symm hjk]
      · simp [bumpStr, hjk, lookupCount_cons, haj, ih]

theorem sumCounts_cons (j : String) (n : Nat) (rest : List (String × Nat)) :
    sumCounts ((j, n) :: rest) = n + sumCounts rest := by
  simp [sumCounts]

theorem sumCounts_bumpStr (k : String) (l : List (String × Nat)) :
    sumCounts (bumpStr k l) = sumCounts l + 1 := by
  induction l with
  | nil => simp [bumpStr, sumCounts]
  | cons p rest ih =>
    obtain ⟨j, n⟩ := p
    by_cases h : j = k <;> simp [bumpStr, h, sumCounts_cons, ih] <;> omega

theorem lookupCount_countBy_loop (key : α → String) (a : String) :
    ∀ (xs : List α) (acc : List (String × Nat)),
      lookupCount (xs.foldl (fun acc x => bumpStr (key x) acc) acc) a
        = lookupCount acc a + xs.countP (fun x => decide (key x = a))
  | [], acc => by simp
  | x :: xs, acc => by
    rw [List.foldl_cons, lookupCount_countBy_loop key a xs, lookupCount_bumpStr,
      List.countP_cons]
    by_cases h : key x = a
    · simp [h]
      omega
    · have h2 : ¬ a = key x := fun hh => h hh.symm
      simp [h, h2]

theorem sumCounts_countBy_loop (key : α → String) :
    ∀ (xs : List α) (acc : List (String × Nat)),
      sumCounts (xs.foldl (fun acc x => bumpStr (key x) acc) acc)
        = sumCounts acc + xs.length
  | [], acc => by simp
  | x :: xs, acc => by
    rw [List.foldl_cons, sumCounts_countBy_loop key xs, sumCounts_bumpStr]
    simp; omega

theorem lookupCount_countBy (key : α → String) (xs : List α) (a : String) :
    lookupCount (countBy key xs) a = xs.countP (fun x => decide (key x = a)) := by
  have h := lookupCount_countBy_loop key a xs []
  simpa [countBy, lookupCount] using h

theorem sumCounts_countBy (key : α → String) (xs : List α) :
    sumCounts (countBy key xs) = xs.length := by
  have h := sumCounts_countBy_loop key xs []
  simpa [countBy, sumCounts] using h

/-- C6 counterexample: for the event set with one "b" event then one "a"
event, the row list [("b",1), ("a",1)] is an admissible result of the
action-frequency query (a permutation of the per-action counts sorted by
count descending), and indeed the one `actionFrequency` computes, yet its
equal-count rows are not in ascending action-name order.  The code's
ORDER BY clause constrains only the count, so the claimed deterministic
tie-break does not hold. -/
theorem C6_tiebreak_counterexample :
    actionFreqRows [⟨1, "b", none, 0⟩, ⟨2, "a", none, 0⟩] [("b", 1), ("a", 1)] ∧
    ¬ countDescNameAsc [("b", 1), ("a", 1)] ∧
    actionFrequency [⟨1, "b", none, 0⟩, ⟨2, "a", none, 0⟩] = [("b", 1), ("a", 1)] := by
  refine ⟨⟨List.Perm.refl _, ?_⟩, ?_, ?_⟩
  · simp [sortedByCountDesc]
  · intro h
    rcases List.pairwise_cons.mp h with ⟨h1, _⟩
    rcases h1 ("a", 1) (by simp) with h2 | ⟨_, h3⟩
    · exact absurd h2 (lt_irrefl 1)
    · exact absurd h3 (by decide)
  · show List.mergeSort _ _ = _
    rw [show countBy (fun e => e.action)
        [(⟨1, "b", none, 0⟩ : EventRec), ⟨2, "a", none, 0⟩]
        = [("b", 1), ("a", 1)] from rfl]
    exact List.mergeSort_of_sorted (by simp)

/-- C6 amended: the action-frequency rows are the per-action event counts
ordered descending by count; each action's row carries the number of
events with that action; the order of equal-count rows is not constrained
by the query (no tie-break key is specified), so it need not be
name-ascending. -/
theorem C6_count_descending (events : List EventRec) (a : String) :
    sortedByCountDesc (actionFrequency events) ∧
    (actionFrequency events).Perm (countBy (fun e => e.action) events) ∧
    lookupCount (countBy (fun e => e.action) events) a
      = events.countP (fun e => decide (e.action = a)) := by
  refine ⟨?_, List.mergeSort_perm _ _, lookupCount_countBy _ _ _⟩
  have h := @List.sorted_mergeSort (String × Nat)
    (fun x y => decide (y.2 ≤ x.2))
    (fun x y z hxy hyz => by simp only [decide_eq_true_eq] at *; omega)
    (fun x y => by simp only [Bool.or_eq_true, decide_eq_true_eq]; omega)
    (countBy (fun e => e.action) events)
  exact h.imp (fun hxy => by simpa using hxy)

/-- C7: for a non-empty lead set the quality-distribution percentages sum
to exactly 100; for the empty lead set the query yields no rows (zero
count for every tier) and the percentage division is never executed. -/
theorem C7_percentages_sum_to_100 (leads : List LeadRec) (q : String)
    (h : leads ≠ []) :
    (((qualityDistribution leads).map (fun p => p.2.2)).sum = 100 ∧
     qualityDistribution [] = [] ∧
     lookupCount (countBy (fun ld => ld.quality) ([] : List LeadRec)) q = 0) := by
  refine ⟨?_, rfl, rfl⟩
  have key : ∀ (l : List (String × Nat)) (t : ℚ),
      ((l.map (fun p => ((p.1, p.2, ((p.2 : ℚ) / t) * 100) : String × Nat × ℚ))).map
        (fun p => p.2.2)).sum
        = ((l.map (fun p => ((p.2 : Nat) : ℚ))).sum / t) * 100 := by
    intro l t
    induction l with
    | nil => simp
    | cons p rest ih =>
      simp only [List.map_cons, List.sum_cons, ih]
      ring
  have hcast : ∀ (l : List (String × Nat)),
      (l.map (fun p => ((p.2 : Nat) : ℚ))).sum = ((sumCounts l : Nat) : ℚ) := by
    intro l
    induction l with
    | nil => simp [sumCounts]
    | cons p rest ih =>
      obtain ⟨j, n⟩ := p
      simp [sumCounts_cons, ih]
  have hlen : sumCounts (countBy (fun ld => ld.quality) leads) = leads.length :=
    sumCounts_countBy _ _
  have hne : ((sumCounts (countBy (fun ld => ld.quality) leads) : Nat) : ℚ) ≠ 0 := by
    rw [hlen]
    have hlp : leads.length ≠ 0 := Nat.pos_iff_ne_zero.mp (List.length_pos.mpr h)
    exact_mod_cast hlp
  calc (((qualityDistribution leads).map (fun p => p.2.2)).sum : ℚ)
      = ((((countBy (fun ld => ld.quality) leads).map
            (fun p => ((p.2 : Nat) : ℚ))).sum
          / ((sumCounts (countBy (fun ld => ld.quality) leads) : Nat) : ℚ)) * 100) := by
        exact key _ _
    _ = 100 := by
        rw [hcast, div_self hne]
        norm_num

theorem stepInd_obj_ok (agg : FilterAgg) (fs : List (String × JsonVal))
    (h1 : (match fs.find? (fun p => decide (p.1 = "industry")) with
           | some p => pyHashable p.2
           | none => true) = true) :
    ∃ agg1, stepInd agg (.obj fs) = .ok agg1 ∧ agg1.size_filters = agg.size_filters := by
  cases hany : fs.any (fun p => decide (p.1 = "industry")) with
  | false =>
    refine ⟨agg, ?_, rfl⟩
    simp [stepInd, pyContains, hany]
  | true =>
    have hsome : (fs.find? (fun p => decide (p.1 = "industry"))).isSome := by
      rw [List.find?_isSome]
      simpa using List.any_eq_true.mp hany
    obtain ⟨p, hp⟩ := Option.isSome_iff_exists.mp hsome
    rw [hp] at h1
    have h1h : pyHashable p.2 = true := h1
    refine ⟨⟨bumpVal p.2 agg.industry_filters, agg.size_filters⟩, ?_, rfl⟩
    simp [stepInd, pyContains, hany, pyGetItem, hp, dictBump, h1h]

theorem stepSize_obj_ok (agg : FilterAgg) (fs : List (String × JsonVal))
    (h2 : (match fs.find? (fun p => decide (p.1 = "size")) with
           | some p => isNumV p.2
           | none => true) = true)
    (hs : agg.size_filters.all isNumV = true) :
    ∃ agg2, stepSize agg (.obj fs) = .ok agg2 ∧
      agg2.size_filters.all isNumV = true := by
  cases hany : fs.any (fun p => decide (p.1 = "size")) with
  | false =>
    exact ⟨agg, by simp [stepSize, pyContains, hany], hs⟩
  | true =>
    have hsome : (fs.find? (fun p => decide (p.1 = "size"))).isSome := by
      rw [List.find?_isSome]
      simpa using List.any_eq_true.mp hany
    obtain ⟨p, hp⟩ := Option.isSome_iff_exists.mp hsome
    rw [hp] at h2
    have h2n : isNumV p.2 = true := h2
    refine ⟨⟨agg.industry_filters, agg.size_filters ++ [p.2]⟩, ?_, ?_⟩
    · simp [stepSize, pyContains, hany, pyGetItem, hp]
    · simp [List.all_append, hs, h2n]

theorem processFilterEvent_ok (agg : FilterAgg) (d : Option JsonVal)
    (hg : goodPayload d = true) (hs : agg.size_filters.all isNumV = true) :
    ∃ agg2, processFilterEvent agg d = .ok agg2 ∧
      agg2.size_filters.all isNumV = true := by
  match d with
  | none => exact ⟨agg, rfl, hs⟩
  | some (.null) => exact ⟨agg, by simp [processFilterEvent, JsonVal.truthy], hs⟩
  | some (.bool b) =>
    cases b with
    | false => exact ⟨agg, by simp [processFilterEvent, JsonVal.truthy], hs⟩
    | true => simp [goodPayload, JsonVal.truthy] at hg
  | some (.num n) =>
    by_cases hn : n = 0
    · subst hn
      exact ⟨agg, by simp [processFilterEvent, JsonVal.truthy], hs⟩
    · simp [goodPayload, JsonVal.truthy, hn] at hg
  | some (.str s) =>
    by_cases hstr : s = ""
    · subst hstr
      exact ⟨agg, by simp [processFilterEvent, JsonVal.truthy], hs⟩
    · simp [goodPayload, JsonVal.truthy, hstr] at hg
  | some (.arr xs) =>
    cases xs with
    | nil => exact ⟨agg, by simp [processFilterEvent, JsonVal.truthy], hs⟩
    | cons y ys => simp [goodPayload, JsonVal.truthy] at hg
  | some (.obj fs) =>
    cases fs with
    | nil => exact ⟨agg, by simp [processFilterEvent, JsonVal.truthy], hs⟩
    | cons q qs =>
      have ht : (JsonVal.obj (q :: qs)).truthy = true := rfl
      rw [goodPayload, ht, if_pos rfl] at hg
      rw [Bool.and_eq_true] at hg
      obtain ⟨h1, h2⟩ := hg
      obtain ⟨agg1, hstep1, hsz1⟩ := stepInd_obj_ok agg (q :: qs) h1
      obtain ⟨agg2, hstep2, hall2⟩ := stepSize_obj_ok agg1 (q :: qs) h2
        (by rw [hsz1]; exact hs)
      exact ⟨agg2, by simp [processFilterEvent, ht, hstep1, hstep2], hall2⟩

theorem foldlM_processFilterEvent_ok :
    ∀ (ds : List (Option JsonVal)) (agg : FilterAgg),
      (∀ d ∈ ds, goodPayload d = true) → agg.size_filters.all isNumV = true →
      ∃ agg2, ds.foldlM processFilterEvent agg = .ok agg2 ∧
        agg2.size_filters.all isNumV = true
  | [], agg, _, hs => ⟨agg, rfl, hs⟩
  | d :: ds, agg, hg, hs => by
    obtain ⟨agg1, hstep, hs1⟩ := processFilterEvent_ok agg d (hg d (by simp)) hs
    obtain ⟨agg2, hfold, hs2⟩ := foldlM_processFilterEvent_ok ds agg1
      (fun x hx => hg x (by simp [hx])) hs1
    refine ⟨agg2, ?_, hs2⟩
    rw [List.foldlM_cons, hstep]
    exact hfold

theorem pySum_ok : ∀ (l : List JsonVal) (acc : Int), l.all isNumV = true →
    ∃ n, pySum acc l = .ok n
  | [], acc, _ => ⟨acc, rfl⟩
  | v :: rest, acc, h => by
    rw [List.all_cons, Bool.and_eq_true] at h
    obtain ⟨hv, hrest⟩ := h
    cases v with
    | num m =>
      obtain ⟨n, hn⟩ := pySum_ok rest (acc + m) hrest
      exact ⟨n, hn⟩
    | null => simp [isNumV] at hv
    | bool b => simp [isNumV] at hv
    | str s => simp [isNumV] at hv
    | arr xs => simp [isNumV] at hv
    | obj fs => simp [isNumV] at hv

/-- C3 counterexample: the filter event whose data payload is the
(non-mapping, truthy) number 7 is not skipped — the membership test
`'industry' in event.data` raises a TypeError that aborts the whole
aggregation — while the aggregation over no events completes fine. -/
theorem C3_malformed_payload_counterexample :
    exceptOk (filterUsagePatterns [⟨1, "filter", some (.num 7), 0⟩]) = false ∧
    (JsonVal.num 7).truthy = true ∧
    exceptOk (filterUsagePatterns []) = true :=
  ⟨rfl, rfl, rfl⟩

/-- C3 amended: events with absent or falsy data payloads are skipped
individually, and the aggregation completes without raising provided every
truthy payload of a filter event is a mapping whose industry value (when
present) is hashable and whose size value (when present) is an integer; a
truthy non-mapping payload instead raises a TypeError that aborts the
aggregation. -/
theorem C3_aggregation_total_on_wellformed (events : List EventRec)
    (h : ∀ e ∈ events, e.action = "filter" → goodPayload e.data = true) :
    exceptOk (filterUsagePatterns events) = true := by
  obtain ⟨agg, hfold, hnums⟩ := foldlM_processFilterEvent_ok
    ((events.filter (fun e => decide (e.action = "filter"))).map (fun e => e.data))
    ⟨[], []⟩
    (by
      intro d hd
      rcases List.mem_map.mp hd with ⟨e, he, rfl⟩
      have hm := List.mem_filter.mp he
      exact h e hm.1 (by simpa using hm.2))
    rfl
  unfold filterUsagePatterns
  rw [hfold]
  by_cases hempty : agg.size_filters.isEmpty
  · simp [hempty, exceptOk]
  · obtain ⟨n, hn⟩ := pySum_ok agg.size_filters 0 hnums
    simp [hempty, hn, exceptOk]

/-- Witness for C3 (amended) on a store with one well-formed filter event,
one filter event with no data, and a malformed payload on a non-filter
event. -/
theorem C3_aggregation_total_on_wellformed_witness :
    ((∀ e ∈ ([⟨1, "filter",
          some (.obj [("industry", .str "Tech"), ("size", .num 100)]), 0⟩,
        ⟨2, "filter", none, 0⟩,
        ⟨3, "view", some (.num 7), 0⟩] : List EventRec),
        e.action = "filter" → goodPayload e.data = true) ∧
     exceptOk (filterUsagePatterns
       [⟨1, "filter",
          some (.obj [("industry", .str "Tech"), ("size", .num 100)]), 0⟩,
        ⟨2, "filter", none, 0⟩,
        ⟨3, "view", some (.num 7), 0⟩]) = true) :=
  ⟨by decide, C3_aggregation_total_on_wellformed _ (by decide)⟩

/-- Witness for C7 on the three-lead example of the specification (one
lead per quality tier). -/
theorem C7_percentages_sum_to_100_witness :
    (([⟨1, "a", "c", "i", 600, "Referral", "High", "s"⟩,
       ⟨2, "b", "c", "i", 150, "PPC", "Medium", "s"⟩,
       ⟨3, "d", "c", "i", 10, "Organic", "Low", "s"⟩] : List LeadRec) ≠ [] ∧
     (((qualityDistribution
          [⟨1, "a", "c", "i", 600, "Referral", "High", "s"⟩,
           ⟨2, "b", "c", "i", 150, "PPC", "Medium", "s"⟩,
           ⟨3, "d", "c", "i", 10, "Organic", "Low", "s"⟩]).map (fun p => p.2.2)).sum
        = 100 ∧
      qualityDistribution [] = [] ∧
      lookupCount (countBy (fun ld => ld.quality) ([] : List LeadRec)) "High" = 0)) :=
  ⟨by decide,
   C7_percentages_sum_to_100
     [⟨1, "a", "c", "i", 600, "Referral", "High", "s"⟩,
      ⟨2, "b", "c", "i", 150, "PPC", "Medium", "s"⟩,
      ⟨3, "d", "c", "i", 10, "Organic", "Low", "s"⟩] "High" (by decide)⟩
